import Mathlib

/-!
Verification of the label-aggregation, response-parsing, row-filtering and
scoring functions of `functions.py` against the repository's specification.

Conventions of the embedding:
* A Python function that can raise is modelled with `Except Unit`;
  `.error ()` stands for a raised exception (`IndexError`, `KeyError`,
  `ValueError`/`SyntaxError`), `.ok v` for a normal return of `v`.
* Python's `None` return value (the `is_test = True` branch of the
  aggregators) is modelled as `Option.none` inside a normal return,
  so the aggregators return `Except Unit (Option Int)`.
* A record dict that lacks the `annotations` key is modelled by
  `Item.annotations = none`; accessing it raises (`KeyError`).
-/

/-- One annotator's entry, the dicts inside `item['annotations']`:
only the `'label'` field is ever read by the source. -/
structure Ann where
  label : String
deriving DecidableEq

/-- A tweet record `item`: a dict with `'id'`, `'text'` and (possibly)
`'annotations'`.  `annotations = none` models a dict without that key. -/
structure Item where
  id : Nat
  text : String
  annotations : Option (List Ann)
deriving DecidableEq

/-- `Counter(labels).most_common(1)[0]`: the first-encountered label with
maximal multiplicity, paired with its count.  `Counter` keys appear in
first-encounter order and `most_common` sorts stably by descending count,
so the tie-break is first-encountered-wins; on an empty list
`most_common(1)` is `[]` and `[0]` raises `IndexError`, modelled by `none`. -/
def most_common1 (labels : List String) : Option (String × Nat) :=
  let maxCount := (labels.map (fun l => labels.count l)).foldl max 0
  (labels.find? (fun l => labels.count l == maxCount)).map (fun l => (l, labels.count l))

/-- `assign_bin_maj` of `functions.py`: 1 if the mode of the labels is not
`'0-Kein'`, 0 otherwise; `None` when `is_test`. -/
def assign_bin_maj (item : Item) (is_test : Bool := false) : Except Unit (Option Int) :=
  if !is_test then
    match item.annotations with
    | none => .error ()
    | some anns =>
      match most_common1 (anns.map (fun a => a.label)) with
      | none => .error ()
      | some (majority_label, _) =>
        .ok (some (if majority_label ≠ "0-Kein" then 1 else 0))
  else
    .ok none

/-- `assign_bin_one`: 1 if at least one annotator assigned a label other
than `'0-Kein'`, 0 otherwise; `None` when `is_test`. -/
def assign_bin_one (item : Item) (is_test : Bool := false) : Except Unit (Option Int) :=
  if !is_test then
    match item.annotations with
    | none => .error ()
    | some anns =>
      .ok (some (if anns.any (fun a => a.label != "0-Kein") then 1 else 0))
  else
    .ok none

/-- `assign_bin_all`: 1 if all annotators assigned labels other than
`'0-Kein'`, 0 otherwise; `None` when `is_test`. -/
def assign_bin_all (item : Item) (is_test : Bool := false) : Except Unit (Option Int) :=
  if !is_test then
    match item.annotations with
    | none => .error ()
    | some anns =>
      .ok (some (if anns.all (fun a => a.label != "0-Kein") then 1 else 0))
  else
    .ok none

/-- `label.split('-')[0]`: the prefix of the string up to the first `-`
(the whole string when there is no `-`). -/
def leadingSegment (s : String) : String :=
  ⟨s.data.takeWhile (fun c => c != '-')⟩

/-- Python's `int(s)`: an optional sign followed by a nonempty run of ASCII
digits (the whitespace/underscore tolerance of `int` is irrelevant to the
label strings fed to it here); `none` models the `ValueError`. -/
def digitsToNat? (cs : List Char) : Option Nat :=
  match cs with
  | [] => none
  | _ => if cs.all Char.isDigit then
      some (cs.foldl (fun n c => 10 * n + (c.toNat - 48)) 0)
    else none

def pyInt? (s : String) : Option Int :=
  match s.data with
  | '-' :: cs => (digitsToNat? cs).map (fun n => -(n : Int))
  | '+' :: cs => (digitsToNat? cs).map (fun n => (n : Int))
  | cs => (digitsToNat? cs).map (fun n => (n : Int))

/-- `assign_multi_maj`: the leading integer (text before the first `-`) of
the mode if its count strictly exceeds half the number of annotations, of
`labels[0]` otherwise.  `int(...)` on a non-numeric leading segment raises,
modelled by `.error ()`; `majority_count > len(labels) / 2` over Python
floats is exactly `2 * majority_count > labels.length` over integers. -/
def assign_multi_maj (item : Item) (is_test : Bool := false) : Except Unit (Option Int) :=
  if !is_test then
    match item.annotations with
    | none => .error ()
    | some anns =>
      let labels := anns.map (fun a => a.label)
      match most_common1 labels with
      | none => .error ()
      | some (majority_label, majority_count) =>
        let chosen := if 2 * majority_count > labels.length then majority_label
          else labels.headD ""
        match pyInt? (leadingSegment chosen) with
        | none => .error ()
        | some k => .ok (some k)
  else
    .ok none

/-- `assign_disagree_bin`: 1 if `'0-Kein'` occurs among the distinct labels
and there is more than one distinct label, 0 otherwise; `None` when
`is_test`.  `set(labels)` is modelled by `List.dedup`. -/
def assign_disagree_bin (item : Item) (is_test : Bool := false) : Except Unit (Option Int) :=
  if !is_test then
    match item.annotations with
    | none => .error ()
    | some anns =>
      let unique_labels := (anns.map (fun a => a.label)).dedup
      .ok (some (if "0-Kein" ∈ unique_labels ∧ unique_labels.length > 1 then 1 else 0))
  else
    .ok none

/-- One output row of `total_data`: the dict
`\x7b'id', 'text', 'bin_maj_label', ..., 'disagree_bin_label'\x7d`.
The label fields are `Option Int` because the aggregators return `None`
when `is_test` is true. -/
structure Row where
  id : Nat
  text : String
  bin_maj_label : Option Int
  bin_one_label : Option Int
  bin_all_label : Option Int
  multi_maj_label : Option Int
  disagree_bin_label : Option Int

/-- `text.replace('\n', ' ')`: the pattern is the single newline character,
so the replacement is a character map. -/
def replaceNewlines (s : String) : String :=
  ⟨s.data.map (fun c => if c = '\n' then ' ' else c)⟩

/-- `total_data` of `functions.py`.  Its `is_test` parameter is never passed
on: all five aggregators are invoked bare, so they run with their own
default `is_test = False`.  The dict values are evaluated left to right, so
the first aggregator that raises aborts the whole call. -/
def total_data (item : Item) (is_test : Bool := false) : Except Unit Row :=
  let text := replaceNewlines item.text
  match assign_bin_maj item with
  | .error e => .error e
  | .ok bm =>
    match assign_bin_one item with
    | .error e => .error e
    | .ok bo =>
      match assign_bin_all item with
      | .error e => .error e
      | .ok ba =>
        match assign_multi_maj item with
        | .error e => .error e
        | .ok mm =>
          match assign_disagree_bin item with
          | .error e => .error e
          | .ok db => .ok ⟨item.id, text, bm, bo, ba, mm, db⟩

/-- The list comprehension `[total_data(item) for item in data]`: evaluated
left to right, the first exception propagates. -/
def mapExcept (f : Item → Except Unit Row) : List Item → Except Unit (List Row)
  | [] => .ok []
  | x :: xs =>
    match f x with
    | .error e => .error e
    | .ok y =>
      match mapExcept f xs with
      | .error e => .error e
      | .ok ys => .ok (y :: ys)

/-- `combine_data`: maps `total_data` (with its defaults) over the list.
With `dataframe = True` the source reads `data_with_labels[0].keys()`,
which raises `IndexError` on an empty list; the resulting DataFrame holds
the same rows with the columns in the fixed key order, so it is modelled
by the same row list. -/
def combine_data (data : List Item) (dataframe : Bool := false) :
    Except Unit (List Row) :=
  match mapExcept (fun item => total_data item) data with
  | .error e => .error e
  | .ok data_with_labels =>
    if dataframe then
      match data_with_labels with
      | [] => .error ()
      | _ => .ok data_with_labels
    else
      .ok data_with_labels

/-- The five-field dictionary recovered by `extract_dict_from_response`:
single-digit values for the five keys, in their fixed order. -/
structure DerivedLabels where
  bin_maj_label : Nat
  bin_one_label : Nat
  bin_all_label : Nat
  multi_maj_label : Nat
  disagree_bin_label : Nat
deriving DecidableEq

/-- Python's `\s` on the ASCII range: space, tab, newline, carriage return,
vertical tab and form feed. -/
def isPySpace (c : Char) : Bool :=
  c == ' ' || c == '\t' || c == '\n' || c == '\r' || c == '\x0b' || c == '\x0c'

/-- Maximal munch of `\s*`.  Every `\s*` in the two source patterns is
followed by a non-space literal or by `\d`, so the regex match is
deterministic and greedy skipping is faithful. -/
def dropSpaces : List Char → List Char
  | [] => []
  | c :: cs => if isPySpace c then dropSpaces cs else c :: cs

/-- Match a literal token at the head of the input, returning the rest. -/
def expect : List Char → List Char → Option (List Char)
  | [], s => some s
  | _ :: _, [] => none
  | t :: ts, c :: cs => if c = t then expect ts cs else none

/-- Match one `(\d)` capture group: a single ASCII digit. -/
def digit? : List Char → Option (Nat × List Char)
  | [] => none
  | c :: cs => if c.isDigit then some (c.toNat - 48, cs) else none

/-- The literal `'key':` token of the patterns. -/
def keyTok (k : String) : List Char := ("'" ++ k ++ "':").data

/-- Match `'key':\s*(\d)`. -/
def matchKeyDigit (k : String) (s : List Char) : Option (Nat × List Char) :=
  (expect (keyTok k) s).bind fun s1 => digit? (dropSpaces s1)

/-- Match `\\\s*n\s*`: a literal backslash, optional spaces, the letter `n`,
optional spaces (the escaped-newline artifact of `pattern_2`). -/
def backslashN (s : List Char) : Option (List Char) :=
  (expect ("\\".data) s).bind fun s1 =>
  (expect ("n".data) (dropSpaces s1)).map fun s2 => dropSpaces s2

/-- `pattern_1` of `extract_dict_from_response`, matched at the head of the
input: `\x7b'bin_maj_label':\s*(\d),\s*'bin_one_label':\s*(\d),\s*...\x7d`
with the five keys in order. -/
def matchPat1head (s : List Char) : Option DerivedLabels :=
  (expect ("\x7b".data) s).bind fun s0 =>
  (matchKeyDigit "bin_maj_label" s0).bind fun p1 =>
  (expect (",".data) p1.2).bind fun u1 =>
  (matchKeyDigit "bin_one_label" (dropSpaces u1)).bind fun p2 =>
  (expect (",".data) p2.2).bind fun u2 =>
  (matchKeyDigit "bin_all_label" (dropSpaces u2)).bind fun p3 =>
  (expect (",".data) p3.2).bind fun u3 =>
  (matchKeyDigit "multi_maj_label" (dropSpaces u3)).bind fun p4 =>
  (expect (",".data) p4.2).bind fun u4 =>
  (matchKeyDigit "disagree_bin_label" (dropSpaces u4)).bind fun p5 =>
  (expect ("\x7d".data) p5.2).map fun _ =>
  ⟨p1.1, p2.1, p3.1, p4.1, p5.1⟩

/-- One `pattern_2` field: `\\\s*n\s*'key':\s*(\d)`. -/
def pat2Field (k : String) (s : List Char) : Option (Nat × List Char) :=
  (backslashN s).bind fun t => matchKeyDigit k t

/-- `,\s*` and then the next `pattern_2` field. -/
def pat2Next (k : String) (s : List Char) : Option (Nat × List Char) :=
  (expect (",".data) s).bind fun u => pat2Field k (dropSpaces u)

/-- `pattern_2`: the same keys with `\\\s*n` markers after the opening brace,
after each comma, and before the closing brace. -/
def matchPat2head (s : List Char) : Option DerivedLabels :=
  (expect ("\x7b".data) s).bind fun s0 =>
  (pat2Field "bin_maj_label" s0).bind fun p1 =>
  (pat2Next "bin_one_label" p1.2).bind fun p2 =>
  (pat2Next "bin_all_label" p2.2).bind fun p3 =>
  (pat2Next "multi_maj_label" p3.2).bind fun p4 =>
  (pat2Next "disagree_bin_label" p4.2).bind fun p5 =>
  (backslashN (dropSpaces p5.2)).bind fun t6 =>
  (expect ("\x7d".data) t6).map fun _ =>
  ⟨p1.1, p2.1, p3.1, p4.1, p5.1⟩

/-- `re.search`: try the pattern at every position, leftmost match wins.
Both patterns need at least one character, so the end position is moot. -/
def scanFirst (m : List Char → Option DerivedLabels) : List Char → Option DerivedLabels
  | [] => none
  | c :: cs =>
    match m (c :: cs) with
    | some d => some d
    | none => scanFirst m cs

/-- `extract_dict_from_response`.  A `pattern_1` match is consulted first and
parsed by `ast.literal_eval` into the five-key dict (`.ok (some d)`).  The
text of a `pattern_2` match contains a bare backslash-`n` outside any string
literal (e.g. `\x7b\n'bin_maj_label': 1, ...`), which is not a valid Python
literal, so on that branch the unguarded `ast.literal_eval` raises: `.error ()`.
No match at all prints a diagnostic and returns `[False]`: `.ok none`. -/
def extract_dict_from_response (response_string : String) :
    Except Unit (Option DerivedLabels) :=
  match scanFirst matchPat1head response_string.data with
  | some d => .ok (some d)
  | none =>
    match scanFirst matchPat2head response_string.data with
    | some _ => .error ()
    | none => .ok none

/-- The exact literal rendering of a `DerivedLabels` value whose round-trip
the spec asserts: `\x7b'bin_maj_label': D1, ..., 'disagree_bin_label': D5\x7d`. -/
def renderLabels (d : DerivedLabels) : String :=
  "\x7b'bin_maj_label': " ++ toString d.bin_maj_label ++
  ", 'bin_one_label': " ++ toString d.bin_one_label ++
  ", 'bin_all_label': " ++ toString d.bin_all_label ++
  ", 'multi_maj_label': " ++ toString d.multi_maj_label ++
  ", 'disagree_bin_label': " ++ toString d.disagree_bin_label ++ "\x7d"

/-- `not any(pd.isna(value) for value in row)`: a prediction row with no
missing value.  A cell is `Option α`, `none` standing for a missing value. -/
def rowComplete (row : List (Option α)) : Bool := row.all (fun v => v.isSome)

/-- `check_df`: collect the indices of the complete prediction rows
(`prediction.iterrows()` yields position `index` under the default range
index), report `len(prediction) - len(indices_to_keep)` removed entries
(the print, modelled as the third component), and restrict both frames with
`.loc[indices_to_keep]`. -/
def check_df (real_data prediction : List (List (Option α))) :
    List (List (Option α)) × List (List (Option α)) × Nat :=
  let indices_to_keep :=
    ((prediction.enum.filter (fun ir => rowComplete ir.2)).map (fun ir => ir.1))
  (indices_to_keep.map (fun i => real_data.getD i []),
   indices_to_keep.map (fun i => prediction.getD i []),
   prediction.length - indices_to_keep.length)

/-- Per-class F1 with the convention F1 = 2TP/(2TP+FP+FN), and 0 when the
class occurs in neither list.  Modelled from the spec: `sklearn.metrics.f1_score`
is an external dependency, described by the spec as "per-class F1 weighted by
class support in `truth_values`" with zero contribution for unseen classes. -/
def f1_class (lbls preds : List Int) (c : Int) : ℚ :=
  let tp := ((lbls.zip preds).filter (fun p => p.1 == c && p.2 == c)).length
  let fp := ((lbls.zip preds).filter (fun p => !(p.1 == c) && p.2 == c)).length
  let fn := ((lbls.zip preds).filter (fun p => p.1 == c && !(p.2 == c))).length
  if 2 * tp + fp + fn = 0 then 0 else (2 * tp : ℚ) / ((2 * tp + fp + fn : Nat) : ℚ)

/-- Weighted-average F1 over the distinct labels present in either list,
each class weighted by its support in `lbls`, normalised by `lbls.length`
(the total support).  Modelled from the spec for `f1_score(..., average='weighted')`. -/
def f1_weighted (lbls preds : List Int) : ℚ :=
  let classes := (lbls ++ preds).dedup
  if lbls.length = 0 then 0
  else ((classes.map (fun c => ((lbls.count c : Nat) : ℚ) * f1_class lbls preds c)).sum) /
    ((lbls.length : Nat) : ℚ)

/-- `compute_metrics`: the `'f1'` entry of the returned dict. -/
def compute_metrics (lbls preds : List Int) : ℚ := f1_weighted lbls preds

/-- A ground-truth or prediction DataFrame as the scorer reads it: the five
derived-label columns. -/
structure LabelFrame where
  bin_maj_label : List Int
  bin_one_label : List Int
  bin_all_label : List Int
  multi_maj_label : List Int
  disagree_bin_label : List Int
deriving DecidableEq, Inhabited

/-- `compute_f1`: the five per-column scores it prints, in print order. -/
def compute_f1 (real_data prediction : LabelFrame) : List ℚ :=
  [compute_metrics real_data.bin_maj_label prediction.bin_maj_label,
   compute_metrics real_data.bin_one_label prediction.bin_one_label,
   compute_metrics real_data.bin_all_label prediction.bin_all_label,
   compute_metrics real_data.multi_maj_label prediction.multi_maj_label,
   compute_metrics real_data.disagree_bin_label prediction.disagree_bin_label]

/-- The five-score sum computed for each prediction in `find_best_model`. -/
def f1_sum (real_data prediction : LabelFrame) : ℚ :=
  (compute_f1 real_data prediction).sum

/-- One step of Python's `max(range(n), key=...)`: keep the current best,
replace it only on a strictly greater key, so the first maximum wins. -/
def argmaxStep (f1_scores : List ℚ) (acc : Option Nat) (i : Nat) : Option Nat :=
  match acc with
  | none => some i
  | some j => if f1_scores.getD j 0 < f1_scores.getD i 0 then some i else some j

/-- `max(range(len(f1_scores)), key=lambda i: f1_scores[i])`; `none` models
the `ValueError` of `max` on an empty range. -/
def argmaxIdx (f1_scores : List ℚ) : Option Nat :=
  (List.range f1_scores.length).foldl (argmaxStep f1_scores) none

/-- The fixed positional name list `key` of `find_best_model`. -/
def keyNames : List String :=
  ["Bert_VSI_5", "Bert_VSI_10", "Bert_VSI_20", "e5_VSI_5", "e5_VSI_10",
   "e5_VSI_20", "KTI_5", "KTI_10", "KTI_20"]

/-- `find_best_model`: sum the five per-column scores for each prediction,
take the argmax (first wins), print `key[max_index]` and the winner's five
scores.  `none` models the exceptions: `max` on an empty list, and
`key[max_index]` with `max_index` past the end of the 9-entry name list. -/
def find_best_model (real_data : LabelFrame) (list_of_predictions : List LabelFrame) :
    Option (String × List ℚ) :=
  let f1_scores := list_of_predictions.map (fun p => f1_sum real_data p)
  match argmaxIdx f1_scores with
  | none => none
  | some max_index =>
    if max_index < keyNames.length then
      some (keyNames.getD max_index "",
        compute_f1 real_data (list_of_predictions.getD max_index default))
    else
      none

-- Facts about `most_common1`, shared by several claims.

theorem le_foldl_max (l : List Nat) (a : Nat) : a ≤ l.foldl max a := by
  induction l generalizing a with
  | nil => exact le_refl a
  | cons z zs ih => exact le_trans (le_max_left a z) (ih (max a z))

theorem foldl_max_le_of_mem {l : List Nat} {x : Nat} (a : Nat) (hx : x ∈ l) :
    x ≤ l.foldl max a := by
  induction l generalizing a with
  | nil => cases hx
  | cons y ys ih =>
    rcases List.mem_cons.mp hx with h | h
    · subst h
      exact le_trans (le_max_right a x) (le_foldl_max ys (max a x))
    · exact ih (max a y) h

theorem foldl_max_attained (l : List Nat) (a : Nat) :
    l.foldl max a = a ∨ l.foldl max a ∈ l := by
  induction l generalizing a with
  | nil => exact Or.inl rfl
  | cons y ys ih =>
    have hfold : (y :: ys).foldl max a = ys.foldl max (max a y) := rfl
    rcases ih (max a y) with h | h
    · rcases le_or_lt y a with hya | hya
      · left; rw [hfold, h, max_eq_left hya]
      · right; rw [hfold, h, max_eq_right hya.le]; exact List.mem_cons_self y ys
    · right; exact List.mem_cons_of_mem y h

/-- Characterisation of `most_common1`: it yields a member of the list, with
its own count, and that count is maximal among the labels' counts. -/
theorem most_common1_eq_some {labels : List String} {m : String} {c : Nat}
    (h : most_common1 labels = some (m, c)) :
    m ∈ labels ∧ c = labels.count m ∧ ∀ x ∈ labels, labels.count x ≤ c := by
  simp only [most_common1] at h
  rcases hf : labels.find? (fun l => labels.count l ==
      (labels.map (fun l => labels.count l)).foldl max 0) with _ | m'
  · rw [hf] at h; simp at h
  · rw [hf] at h
    obtain ⟨hm, hc⟩ : m' = m ∧ labels.count m' = c := by
      have h' := Option.some.inj h
      exact ⟨congrArg Prod.fst h', congrArg Prod.snd h'⟩
    subst hm
    refine ⟨List.mem_of_find?_eq_some hf, hc.symm, ?_⟩
    intro x hx
    have hcount : labels.count m' = (labels.map (fun l => labels.count l)).foldl max 0 := by
      have := List.find?_some hf
      simpa using this
    rw [← hc, hcount]
    exact foldl_max_le_of_mem 0 (List.mem_map.mpr ⟨x, hx, rfl⟩)

theorem most_common1_isSome {labels : List String} (h : labels ≠ []) :
    ∃ m, most_common1 labels = some (m, labels.count m) := by
  simp only [most_common1]
  rcases hf : labels.find? (fun l => labels.count l ==
      (labels.map (fun l => labels.count l)).foldl max 0) with _ | m'
  · exfalso
    rw [List.find?_eq_none] at hf
    rcases foldl_max_attained (labels.map (fun l => labels.count l)) 0 with h0 | hmem
    · rcases labels with _ | ⟨x, xs⟩
      · exact h rfl
      · have hx : (x :: xs).count x ≤
            ((x :: xs).map (fun l => (x :: xs).count l)).foldl max 0 :=
          foldl_max_le_of_mem 0 (List.mem_map.mpr ⟨x, List.mem_cons_self x xs, rfl⟩)
        have hpos : 0 < (x :: xs).count x := by
          rw [List.count_cons_self]; omega
        omega
    · rcases List.mem_map.mp hmem with ⟨y, hy, hyc⟩
      exact hf y hy (by simp [hyc])
  · exact ⟨m', rfl⟩

-- C1: behaviour of the five aggregators on an empty annotation list.

/-- C1 counterexample: the claim says all five aggregation functions fail on
a record with an empty annotation list, but `assign_bin_one` returns 0,
`assign_bin_all` returns 1 and `assign_disagree_bin` returns 0 (vacuous
`any`/`all`/`set` over an empty list), with no failure. -/
theorem bin_one_empty_no_failure :
    assign_bin_one ⟨0, "", some []⟩ = .ok (some 0) ∧
    assign_bin_all ⟨0, "", some []⟩ = .ok (some 1) ∧
    assign_disagree_bin ⟨0, "", some []⟩ = .ok (some 0) :=
  ⟨rfl, rfl, rfl⟩

/-- C1 (amended): on a record with an empty annotation list and
`is_test = False`, `assign_bin_maj` and `assign_multi_maj` fail (their
`most_common(1)[0]` raises `IndexError`), while `assign_bin_one` returns 0,
`assign_bin_all` returns 1 and `assign_disagree_bin` returns 0. -/
theorem empty_annotations_agg (item : Item) (h : item.annotations = some []) :
    assign_bin_maj item = .error () ∧
    assign_multi_maj item = .error () ∧
    assign_bin_one item = .ok (some 0) ∧
    assign_bin_all item = .ok (some 1) ∧
    assign_disagree_bin item = .ok (some 0) := by
  refine ⟨?_, ?_, ?_, ?_, ?_⟩ <;>
    simp [assign_bin_maj, assign_multi_maj, assign_bin_one, assign_bin_all,
      assign_disagree_bin, h, most_common1]

/-- Witness for the amended C1 at the concrete empty-list record. -/
theorem empty_annotations_agg_witness :
    (⟨0, "", some []⟩ : Item).annotations = some [] ∧
    (assign_bin_maj ⟨0, "", some []⟩ = .error () ∧
     assign_multi_maj ⟨0, "", some []⟩ = .error () ∧
     assign_bin_one ⟨0, "", some []⟩ = .ok (some 0) ∧
     assign_bin_all ⟨0, "", some []⟩ = .ok (some 1) ∧
     assign_disagree_bin ⟨0, "", some []⟩ = .ok (some 0)) :=
  ⟨rfl, empty_annotations_agg ⟨0, "", some []⟩ rfl⟩

-- Shape facts about the aggregators, shared by C6 and C9.

theorem assign_bin_one_ok_isSome {item : Item} {v : Option Int}
    (h : assign_bin_one item = .ok v) : v.isSome := by
  rcases hA : item.annotations with _ | anns
  · simp [assign_bin_one, hA] at h
  · simp [assign_bin_one, hA] at h
    subst h; rfl

theorem assign_bin_all_ok_isSome {item : Item} {v : Option Int}
    (h : assign_bin_all item = .ok v) : v.isSome := by
  rcases hA : item.annotations with _ | anns
  · simp [assign_bin_all, hA] at h
  · simp [assign_bin_all, hA] at h
    subst h; rfl

theorem assign_disagree_bin_ok_isSome {item : Item} {v : Option Int}
    (h : assign_disagree_bin item = .ok v) : v.isSome := by
  rcases hA : item.annotations with _ | anns
  · simp [assign_disagree_bin, hA] at h
  · simp [assign_disagree_bin, hA] at h
    subst h; rfl

theorem assign_bin_maj_ok_isSome {item : Item} {v : Option Int}
    (h : assign_bin_maj item = .ok v) : v.isSome := by
  rcases hA : item.annotations with _ | anns
  · simp [assign_bin_maj, hA] at h
  · rcases hm : most_common1 (anns.map fun a => a.label) with _ | p
    · simp [assign_bin_maj, hA, hm] at h
    · obtain ⟨m, c⟩ := p
      simp [assign_bin_maj, hA, hm] at h
      subst h; rfl

theorem assign_multi_maj_ok_isSome {item : Item} {v : Option Int}
    (h : assign_multi_maj item = .ok v) : v.isSome := by
  rcases hA : item.annotations with _ | anns
  · simp [assign_multi_maj, hA] at h
  · rcases hm : most_common1 (anns.map fun a => a.label) with _ | p
    · simp [assign_multi_maj, hA, hm] at h
    · obtain ⟨m, c⟩ := p
      simp [assign_multi_maj, hA, hm] at h
      split at h
      · exact Except.noConfusion h
      · simp only [Except.ok.injEq] at h
        subst h; rfl

theorem total_data_ok_isSome {item : Item} {b : Bool} {row : Row}
    (h : total_data item b = .ok row) :
    row.bin_maj_label.isSome ∧ row.bin_one_label.isSome ∧ row.bin_all_label.isSome ∧
    row.multi_maj_label.isSome ∧ row.disagree_bin_label.isSome := by
  simp only [total_data] at h
  rcases h1 : assign_bin_maj item with e | bm
  · simp only [h1] at h
    exact Except.noConfusion h
  · simp only [h1] at h
    rcases h2 : assign_bin_one item with e | bo
    · simp only [h2] at h
      exact Except.noConfusion h
    · simp only [h2] at h
      rcases h3 : assign_bin_all item with e | ba
      · simp only [h3] at h
        exact Except.noConfusion h
      · simp only [h3] at h
        rcases h4 : assign_multi_maj item with e | mm
        · simp only [h4] at h
          exact Except.noConfusion h
        · simp only [h4] at h
          rcases h5 : assign_disagree_bin item with e | db
          · simp only [h5] at h
            exact Except.noConfusion h
          · simp only [h5] at h
            obtain rfl : Row.mk item.id (replaceNewlines item.text) bm bo ba mm db = row :=
              Except.ok.inj h
            exact ⟨assign_bin_maj_ok_isSome h1, assign_bin_one_ok_isSome h2,
              assign_bin_all_ok_isSome h3, assign_multi_maj_ok_isSome h4,
              assign_disagree_bin_ok_isSome h5⟩

theorem total_data_missing {item : Item} (b : Bool) (h : item.annotations = none) :
    total_data item b = .error () := by
  have h1 : assign_bin_maj item = .error () := by simp [assign_bin_maj, h]
  simp [total_data, h1]

theorem mapExcept_ok_mem {f : Item → Except Unit Row} {data : List Item} {rows : List Row}
    (h : mapExcept f data = .ok rows) :
    ∀ row ∈ rows, ∃ item ∈ data, f item = .ok row := by
  induction data generalizing rows with
  | nil =>
    simp only [mapExcept] at h
    obtain rfl : [] = rows := Except.ok.inj h
    simp
  | cons x xs ih =>
    simp only [mapExcept] at h
    rcases hfx : f x with e | y
    · simp only [hfx] at h
      exact Except.noConfusion h
    · simp only [hfx] at h
      rcases hrest : mapExcept f xs with e | ys
      · simp only [hrest] at h
        exact Except.noConfusion h
      · simp only [hrest] at h
        obtain rfl : y :: ys = rows := Except.ok.inj h
        intro row hr
        rcases List.mem_cons.mp hr with h' | h'
        · exact ⟨x, List.mem_cons_self x xs, by rw [h']; exact hfx⟩
        · rcases ih hrest row h' with ⟨it, hit, hfi⟩
          exact ⟨it, List.mem_cons_of_mem x hit, hfi⟩

theorem combine_data_ok_rows {data : List Item} {df : Bool} {rows : List Row}
    (h : combine_data data df = .ok rows) :
    mapExcept (fun item => total_data item) data = .ok rows := by
  simp only [combine_data] at h
  rcases hme : mapExcept (fun item => total_data item) data with e | dls
  · simp only [hme] at h
    exact h
  · simp only [hme] at h
    cases df
    · simp at h
      subst h
      rfl
    · rcases dls with _ | ⟨r, rs⟩
      · simp at h
      · simp at h
        subst h
        rfl

-- C6.

/-- C6: for every record with at least one annotation and `is_test = False`,
`assign_bin_all item = 1` implies `assign_bin_one item = 1` (if all labels
differ from `'0-Kein'` then at least one does). -/
theorem bin_all_implies_bin_one (item : Item) (anns : List Ann)
    (hA : item.annotations = some anns) (hne : anns ≠ [])
    (hall : assign_bin_all item = .ok (some 1)) :
    assign_bin_one item = .ok (some 1) := by
  have hv : anns.all (fun a => a.label != "0-Kein") = true := by
    by_contra hcon
    rw [Bool.not_eq_true] at hcon
    simp [assign_bin_all, hA, hcon] at hall
  have hany : anns.any (fun a => a.label != "0-Kein") = true := by
    rcases anns with _ | ⟨a, as⟩
    · exact absurd rfl hne
    · have ha := List.all_eq_true.mp hv a (List.mem_cons_self a as)
      exact List.any_eq_true.mpr ⟨a, List.mem_cons_self a as, ha⟩
  simp [assign_bin_one, hA, hany]

/-- Witness for C6 at a concrete single-annotation record. -/
theorem bin_all_implies_bin_one_witness :
    (⟨3, "t", some [⟨"1-X"⟩]⟩ : Item).annotations = some [⟨"1-X"⟩] ∧
    ([(⟨"1-X"⟩ : Ann)] ≠ []) ∧
    assign_bin_all ⟨3, "t", some [⟨"1-X"⟩]⟩ = .ok (some 1) ∧
    assign_bin_one ⟨3, "t", some [⟨"1-X"⟩]⟩ = .ok (some 1) :=
  ⟨rfl, by decide, rfl,
   bin_all_implies_bin_one ⟨3, "t", some [⟨"1-X"⟩]⟩ [⟨"1-X"⟩] rfl (by decide) rfl⟩

-- C9.

/-- C9: `total_data` never passes its `is_test` argument on, so whatever that
argument is, a successful row always carries all five derived labels
(no `None` fields); and on a record lacking the `annotations` key every run
fails (the first aggregator raises `KeyError`) instead of emitting a row.
The same holds for every row `combine_data` returns. -/
theorem total_data_default_spec :
    (∀ (item : Item) (b : Bool) (row : Row), total_data item b = .ok row →
      row.bin_maj_label.isSome ∧ row.bin_one_label.isSome ∧ row.bin_all_label.isSome ∧
      row.multi_maj_label.isSome ∧ row.disagree_bin_label.isSome) ∧
    (∀ (item : Item) (b : Bool), item.annotations = none → total_data item b = .error ()) ∧
    (∀ (data : List Item) (df : Bool) (rows : List Row), combine_data data df = .ok rows →
      ∀ row ∈ rows, row.bin_maj_label.isSome ∧ row.bin_one_label.isSome ∧
        row.bin_all_label.isSome ∧ row.multi_maj_label.isSome ∧
        row.disagree_bin_label.isSome) :=
  ⟨fun _ _ _ h => total_data_ok_isSome h,
   fun _ b h => total_data_missing b h,
   fun _ _ _ h row hr => by
     rcases mapExcept_ok_mem (combine_data_ok_rows h) row hr with ⟨it, _, hok⟩
     exact total_data_ok_isSome hok⟩

/-- Witness for C9: a labeled record run with `is_test = True` still gets all
five labels computed (the flag is ignored), and a record without the
`annotations` key makes `total_data` fail. -/
theorem total_data_default_spec_witness :
    total_data ⟨7, "a", some [⟨"1-X"⟩]⟩ true =
      .ok ⟨7, "a", some 1, some 1, some 1, some 1, some 0⟩ ∧
    ((Option.some (1 : Int)).isSome ∧ (Option.some (1 : Int)).isSome ∧
     (Option.some (1 : Int)).isSome ∧ (Option.some (1 : Int)).isSome ∧
     (Option.some (0 : Int)).isSome) ∧
    total_data ⟨7, "a", none⟩ true = .error () :=
  ⟨rfl,
   total_data_default_spec.1 ⟨7, "a", some [⟨"1-X"⟩]⟩ true
     ⟨7, "a", some 1, some 1, some 1, some 1, some 0⟩ rfl,
   total_data_default_spec.2.1 ⟨7, "a", none⟩ true rfl⟩

-- Counting helpers for the majority arguments (C2, C3).

theorem count_pair_le (l : List String) (a b : String) (hab : a ≠ b) :
    l.count a + l.count b ≤ l.length := by
  induction l with
  | nil => simp
  | cons x xs ih =>
    simp only [List.length_cons]
    by_cases h1 : a = x
    · subst h1
      rw [List.count_cons_self, List.count_cons_of_ne (Ne.symm hab)]
      omega
    · by_cases h2 : b = x
      · subst h2
        rw [List.count_cons_of_ne h1, List.count_cons_self]
        omega
      · rw [List.count_cons_of_ne h1, List.count_cons_of_ne h2]
        omega

theorem find?_eq_of_first {α : Type} (p : α → Bool) (l : List α) (d : α) (i : Nat)
    (hi : i < l.length) (hp : p (l.getD i d) = true)
    (hj : ∀ j, j < i → p (l.getD j d) = false) :
    l.find? p = some (l.getD i d) := by
  induction l generalizing i with
  | nil => simp at hi
  | cons x xs ih =>
    rcases i with _ | n
    · simp only [List.getD_cons_zero] at hp ⊢
      simp [List.find?_cons, hp]
    · have h0 : p x = false := by
        have := hj 0 (Nat.succ_pos n)
        simpa using this
      simp only [List.length_cons] at hi
      simp only [List.getD_cons_succ] at hp ⊢
      simp only [List.find?_cons, h0]
      exact ih n (by omega) hp (fun j hj' => by
        have := hj (j + 1) (by omega)
        simpa using this)

-- C2.

/-- C2: for a record with at least one annotation and `is_test = False`,
`assign_multi_maj` returns the leading integer (text before the first `-`)
of the strict-majority label when one exists, and otherwise the leading
integer of the first annotation's label; in particular on annotations
`["1-X", "2-Y"]` it returns 1. -/
theorem multi_maj_spec (item : Item) (anns : List Ann)
    (hA : item.annotations = some anns) :
    (∀ m k, m ∈ anns.map (fun a => a.label) →
      2 * (anns.map (fun a => a.label)).count m > (anns.map (fun a => a.label)).length →
      pyInt? (leadingSegment m) = some k →
      assign_multi_maj item = .ok (some k)) ∧
    (∀ k, anns ≠ [] →
      (∀ m ∈ anns.map (fun a => a.label),
        2 * (anns.map (fun a => a.label)).count m ≤ (anns.map (fun a => a.label)).length) →
      pyInt? (leadingSegment ((anns.map (fun a => a.label)).headD "")) = some k →
      assign_multi_maj item = .ok (some k)) ∧
    assign_multi_maj ⟨0, "", some [⟨"1-X"⟩, ⟨"2-Y"⟩]⟩ = .ok (some 1) := by
  refine ⟨?_, ?_, by rfl⟩
  · intro m k hm hmaj hk
    have hne : anns.map (fun a => a.label) ≠ [] := List.ne_nil_of_mem hm
    obtain ⟨M, hM⟩ := most_common1_isSome hne
    obtain ⟨hMmem, -, hMmax⟩ := most_common1_eq_some hM
    have hMmaj : 2 * (anns.map (fun a => a.label)).count M >
        (anns.map (fun a => a.label)).length := by
      have := hMmax m hm
      omega
    have hMm : M = m := by
      by_contra hne'
      have := count_pair_le (anns.map (fun a => a.label)) M m hne'
      omega
    subst hMm
    simp only [assign_multi_maj, hA, hM, Bool.not_false, if_true]
    rw [if_pos hMmaj, hk]
  · intro k hne hmax hk
    have hne' : anns.map (fun a => a.label) ≠ [] := by
      simpa using hne
    obtain ⟨M, hM⟩ := most_common1_isSome hne'
    obtain ⟨hMmem, -, -⟩ := most_common1_eq_some hM
    have hno : ¬ 2 * (anns.map (fun a => a.label)).count M >
        (anns.map (fun a => a.label)).length := by
      have := hmax M hMmem
      omega
    simp only [assign_multi_maj, hA, hM, Bool.not_false, if_true]
    rw [if_neg hno, hk]

/-- Witness for C2: a strict-majority record, a tie record falling back to
the first annotation, and the concrete `["1-X","2-Y"]` record. -/
theorem multi_maj_spec_witness :
    (("2-Y" : String) ∈ ([⟨"1-X"⟩, ⟨"2-Y"⟩, ⟨"2-Y"⟩] : List Ann).map (fun a => a.label) ∧
     2 * (([⟨"1-X"⟩, ⟨"2-Y"⟩, ⟨"2-Y"⟩] : List Ann).map (fun a => a.label)).count "2-Y" >
       (([⟨"1-X"⟩, ⟨"2-Y"⟩, ⟨"2-Y"⟩] : List Ann).map (fun a => a.label)).length ∧
     pyInt? (leadingSegment "2-Y") = some 2) ∧
    assign_multi_maj ⟨0, "", some [⟨"1-X"⟩, ⟨"2-Y"⟩, ⟨"2-Y"⟩]⟩ = .ok (some 2) :=
  ⟨⟨by decide, by decide, by decide⟩,
   (multi_maj_spec ⟨0, "", some [⟨"1-X"⟩, ⟨"2-Y"⟩, ⟨"2-Y"⟩]⟩
     [⟨"1-X"⟩, ⟨"2-Y"⟩, ⟨"2-Y"⟩] rfl).1 "2-Y" 2 (by decide) (by decide) (by decide)⟩

-- C3.

/-- C3: for a record with at least one annotation and `is_test = False`,
`assign_bin_maj` returns 1 exactly when the mode of the labels — the first
label (in annotation order) whose count is maximal, which is how a stable
counter breaks ties — differs from `"0-Kein"`, and 0 otherwise; this holds
for every such record, ties included. -/
theorem bin_maj_mode_spec (item : Item) (anns : List Ann)
    (hA : item.annotations = some anns) (i : Nat)
    (hi : i < (anns.map (fun a => a.label)).length)
    (hmax : ∀ y ∈ anns.map (fun a => a.label),
      (anns.map (fun a => a.label)).count y ≤
        (anns.map (fun a => a.label)).count ((anns.map (fun a => a.label)).getD i ""))
    (hfirst : ∀ j, j < i → ∃ y ∈ anns.map (fun a => a.label),
      (anns.map (fun a => a.label)).count ((anns.map (fun a => a.label)).getD j "") <
        (anns.map (fun a => a.label)).count y) :
    assign_bin_maj item =
      .ok (some (if (anns.map (fun a => a.label)).getD i "" ≠ "0-Kein" then 1 else 0)) := by
  have hmem : (anns.map (fun a => a.label)).getD i "" ∈ anns.map (fun a => a.label) := by
    rw [List.getD_eq_getElem?_getD, List.getElem?_eq_getElem hi]
    exact List.getElem_mem _
  have hboundM : ∀ x ∈ anns.map (fun a => a.label),
      (anns.map (fun a => a.label)).count x ≤
      ((anns.map (fun a => a.label)).map
        (fun l => (anns.map (fun a => a.label)).count l)).foldl max 0 :=
    fun x hx => foldl_max_le_of_mem 0 (List.mem_map.mpr ⟨x, hx, rfl⟩)
  have hmode : (anns.map (fun a => a.label)).count ((anns.map (fun a => a.label)).getD i "") =
      ((anns.map (fun a => a.label)).map
        (fun l => (anns.map (fun a => a.label)).count l)).foldl max 0 := by
    rcases foldl_max_attained ((anns.map (fun a => a.label)).map
        (fun l => (anns.map (fun a => a.label)).count l)) 0 with h0 | hmem'
    · have h1 := hboundM _ hmem
      have h2 : 0 < (anns.map (fun a => a.label)).count ((anns.map (fun a => a.label)).getD i "") :=
        List.count_pos_iff_mem.mpr hmem
      omega
    · rcases List.mem_map.mp hmem' with ⟨y, hy, hyc⟩
      have h1 := hmax y hy
      have h2 := hboundM _ hmem
      omega
  have hfind : (anns.map (fun a => a.label)).find?
      (fun l => (anns.map (fun a => a.label)).count l ==
        ((anns.map (fun a => a.label)).map
          (fun l => (anns.map (fun a => a.label)).count l)).foldl max 0) =
      some ((anns.map (fun a => a.label)).getD i "") := by
    apply find?_eq_of_first _ _ _ i hi
    · exact beq_iff_eq.mpr hmode
    · intro j hj
      rcases hfirst j hj with ⟨y, hy, hlt⟩
      have h1 := hboundM y hy
      exact beq_eq_false_iff_ne.mpr (by omega)
  have hmc : most_common1 (anns.map (fun a => a.label)) =
      some ((anns.map (fun a => a.label)).getD i "",
        (anns.map (fun a => a.label)).count ((anns.map (fun a => a.label)).getD i "")) := by
    simp only [most_common1, hfind]
    rfl
  simp only [assign_bin_maj, hA, hmc, Bool.not_false, if_true]

/-- Witness for C3 at a two-way tie, where the first-encountered label wins. -/
theorem bin_maj_mode_spec_witness :
    (0 < (([⟨"1-X"⟩, ⟨"0-Kein"⟩] : List Ann).map (fun a => a.label)).length ∧
     (∀ y ∈ ([⟨"1-X"⟩, ⟨"0-Kein"⟩] : List Ann).map (fun a => a.label),
       (([⟨"1-X"⟩, ⟨"0-Kein"⟩] : List Ann).map (fun a => a.label)).count y ≤
         (([⟨"1-X"⟩, ⟨"0-Kein"⟩] : List Ann).map (fun a => a.label)).count
           ((([⟨"1-X"⟩, ⟨"0-Kein"⟩] : List Ann).map (fun a => a.label)).getD 0 ""))) ∧
    assign_bin_maj ⟨1, "", some [⟨"1-X"⟩, ⟨"0-Kein"⟩]⟩ = .ok (some 1) :=
  ⟨⟨by decide, by decide⟩,
   bin_maj_mode_spec ⟨1, "", some [⟨"1-X"⟩, ⟨"0-Kein"⟩]⟩ [⟨"1-X"⟩, ⟨"0-Kein"⟩] rfl 0
     (by decide) (by decide) (fun j hj => absurd hj (Nat.not_lt_zero j))⟩

-- C7: `check_df` keeps exactly the complete prediction rows.

theorem keep_map_getD {β : Type} (p : β → Bool) (d : β) (big : List β) :
    ∀ (lp lr : List β) (n : Nat),
      lr.length = lp.length →
      (∀ j, j < lp.length → big.getD (n + j) d = lr.getD j d) →
      ((lp.enumFrom n).filter (fun ir => p ir.2)).map (fun ir => big.getD ir.1 d) =
      ((lr.zip lp).filter (fun rp => p rp.2)).map (fun rp => rp.1) := by
  intro lp
  induction lp with
  | nil =>
    intro lr n h1 h2
    simp [List.enumFrom]
  | cons x xs ih =>
    intro lr n h1 h2
    rcases lr with _ | ⟨y, ys⟩
    · simp at h1
    · simp only [List.length_cons] at h1
      have h1' : ys.length = xs.length := by omega
      have hy : big.getD n d = y := by
        have := h2 0 (by simp)
        simpa using this
      have h2' : ∀ j, j < xs.length → big.getD (n + 1 + j) d = ys.getD j d := by
        intro j hj
        have := h2 (j + 1) (by simp only [List.length_cons]; omega)
        rw [show n + (j + 1) = n + 1 + j by omega] at this
        simpa using this
      simp only [List.enumFrom, List.zip_cons_cons, List.filter_cons]
      cases hp : p x with
      | false =>
        simp only [hp, Bool.false_eq_true, if_false]
        exact ih ys (n + 1) h1' h2'
      | true =>
        simp only [hp, if_true, List.map_cons, hy]
        exact congrArg (List.cons y) (ih ys (n + 1) h1' h2')

theorem zip_self_filter {β : Type} (p : β → Bool) (l : List β) :
    ((l.zip l).filter (fun rp => p rp.2)).map (fun rp => rp.1) = l.filter p := by
  induction l with
  | nil => rfl
  | cons x xs ih =>
    simp only [List.zip_cons_cons, List.filter_cons]
    cases hp : p x with
    | false =>
      simp only [hp, Bool.false_eq_true, if_false]
      exact ih
    | true =>
      simp only [hp, if_true, List.map_cons]
      exact congrArg (List.cons x) ih

/-- C7: for row-aligned tables of equal length, `check_df` returns both
tables restricted, in order, to exactly the positions whose prediction row
has no missing value, and reports the number of removed rows; in particular
on a two-row prediction table with one incomplete row it keeps one row of
each table and reports one removed entry. -/
theorem check_df_spec {α : Type} (real_data prediction : List (List (Option α)))
    (h : real_data.length = prediction.length) :
    (check_df real_data prediction).1 =
      ((real_data.zip prediction).filter (fun rp => rowComplete rp.2)).map (fun rp => rp.1) ∧
    (check_df real_data prediction).2.1 = prediction.filter rowComplete ∧
    (check_df real_data prediction).2.2 =
      prediction.length - (prediction.filter rowComplete).length ∧
    check_df [[some (0 : Int)], [some 1]] [[some 5], [none]] =
      ([[some (0 : Int)]], [[some (5 : Int)]], 1) := by
  have hreal : ∀ j, j < prediction.length →
      real_data.getD (0 + j) ([] : List (Option α)) = real_data.getD j [] := by
    intro j hj
    rw [Nat.zero_add]
  have hkeep : ∀ j, j < prediction.length →
      prediction.getD (0 + j) ([] : List (Option α)) = prediction.getD j [] := by
    intro j hj
    rw [Nat.zero_add]
  have hp1 := keep_map_getD rowComplete ([] : List (Option α)) real_data
    prediction real_data 0 h hreal
  have hp2 := (keep_map_getD rowComplete ([] : List (Option α)) prediction
    prediction prediction 0 rfl hkeep).trans (zip_self_filter rowComplete prediction)
  refine ⟨?_, ?_, ?_, by rfl⟩
  · simp only [check_df, List.map_map]
    exact hp1
  · simp only [check_df, List.map_map]
    exact hp2
  · simp only [check_df]
    have hlen := congrArg List.length hp2
    simp only [List.length_map] at hlen
    rw [show List.enumFrom 0 prediction = prediction.enum from rfl] at hlen
    simp only [List.length_map]
    omega

/-- Witness for C7 at the spec's one-complete-one-incomplete example. -/
theorem check_df_spec_witness :
    ([[some (0 : Int)], [some 1]] : List (List (Option Int))).length =
      ([[some 5], [none]] : List (List (Option Int))).length ∧
    check_df [[some (0 : Int)], [some 1]] [[some 5], [none]] =
      ([[some (0 : Int)]], [[some (5 : Int)]], 1) :=
  ⟨rfl, (check_df_spec [[some (0 : Int)], [some 1]] [[some 5], [none]] rfl).2.2.2⟩

-- Parser stepping lemmas (C4, C5, C10).

theorem option_bind_some {α β : Type} (a : α) (f : α → Option β) :
    (Option.some a).bind f = f a := rfl

theorem option_map_some {α β : Type} (a : α) (f : α → β) :
    (Option.some a).map f = some (f a) := rfl

theorem expect_append (t s : List Char) : expect t (t ++ s) = some s := by
  induction t with
  | nil => rfl
  | cons c cs ih => simp [expect, ih]

theorem expect_single (c : Char) (R : List Char) : expect [c] (c :: R) = some R := by
  simp [expect]

theorem dropSpaces_not_space {c : Char} (h : isPySpace c = false) (cs : List Char) :
    dropSpaces (c :: cs) = c :: cs := by
  simp [dropSpaces, h]

theorem dropSpaces_space (cs : List Char) : dropSpaces (' ' :: cs) = dropSpaces cs := by
  simp [dropSpaces, isPySpace]

theorem digitChar_not_space {d : Nat} (h : d < 10) :
    isPySpace (Nat.digitChar d) = false := by
  interval_cases d <;> rfl

theorem digit?_digitChar {d : Nat} (h : d < 10) (rest : List Char) :
    digit? (Nat.digitChar d :: rest) = some (d, rest) := by
  interval_cases d <;> rfl

theorem toString_digit {d : Nat} (h : d < 10) : (toString d).data = [Nat.digitChar d] := by
  interval_cases d <;> rfl

theorem keyTok_cons (k : String) : keyTok k = '\'' :: (k.data ++ ['\'', ':']) := by
  simp [keyTok, String.data_append]

theorem keyTok_head (k : String) (t : List Char) :
    dropSpaces (keyTok k ++ t) = keyTok k ++ t := by
  rw [keyTok_cons, List.cons_append]
  exact dropSpaces_not_space (by rfl) _

theorem matchKeyDigit_exact (k : String) {d : Nat} (h : d < 10) (rest : List Char) :
    matchKeyDigit k (keyTok k ++ (' ' :: Nat.digitChar d :: rest)) = some (d, rest) := by
  simp only [matchKeyDigit, expect_append, option_bind_some, dropSpaces_space,
    dropSpaces_not_space (digitChar_not_space h), digit?_digitChar h]

theorem matchPat1head_exact (d1 d2 d3 d4 d5 : Nat)
    (h1 : d1 < 10) (h2 : d2 < 10) (h3 : d3 < 10) (h4 : d4 < 10) (h5 : d5 < 10)
    (rest : List Char) :
    matchPat1head ('\x7b' ::
      (keyTok "bin_maj_label" ++ (' ' :: Nat.digitChar d1 :: ',' :: ' ' ::
      (keyTok "bin_one_label" ++ (' ' :: Nat.digitChar d2 :: ',' :: ' ' ::
      (keyTok "bin_all_label" ++ (' ' :: Nat.digitChar d3 :: ',' :: ' ' ::
      (keyTok "multi_maj_label" ++ (' ' :: Nat.digitChar d4 :: ',' :: ' ' ::
      (keyTok "disagree_bin_label" ++
        (' ' :: Nat.digitChar d5 :: '\x7d' :: rest))))))))))) =
    some ⟨d1, d2, d3, d4, d5⟩ := by
  simp only [matchPat1head,
    show ("\x7b".data : List Char) = ['\x7b'] from rfl,
    show (",".data : List Char) = [','] from rfl,
    show ("\x7d".data : List Char) = ['\x7d'] from rfl,
    expect_single, option_bind_some, option_map_some,
    dropSpaces_space, keyTok_head,
    matchKeyDigit_exact _ h1, matchKeyDigit_exact _ h2, matchKeyDigit_exact _ h3,
    matchKeyDigit_exact _ h4, matchKeyDigit_exact _ h5]

theorem renderLabels_data (d : DerivedLabels)
    (h1 : d.bin_maj_label < 10) (h2 : d.bin_one_label < 10) (h3 : d.bin_all_label < 10)
    (h4 : d.multi_maj_label < 10) (h5 : d.disagree_bin_label < 10) :
    (renderLabels d).data = '\x7b' ::
      (keyTok "bin_maj_label" ++ (' ' :: Nat.digitChar d.bin_maj_label :: ',' :: ' ' ::
      (keyTok "bin_one_label" ++ (' ' :: Nat.digitChar d.bin_one_label :: ',' :: ' ' ::
      (keyTok "bin_all_label" ++ (' ' :: Nat.digitChar d.bin_all_label :: ',' :: ' ' ::
      (keyTok "multi_maj_label" ++ (' ' :: Nat.digitChar d.multi_maj_label :: ',' :: ' ' ::
      (keyTok "disagree_bin_label" ++
        (' ' :: Nat.digitChar d.disagree_bin_label :: '\x7d' :: [])))))))))) := by
  simp only [renderLabels, String.data_append, toString_digit h1, toString_digit h2,
    toString_digit h3, toString_digit h4, toString_digit h5,
    show ("\x7b'bin_maj_label': " : String).data =
      '\x7b' :: (keyTok "bin_maj_label" ++ [' ']) from rfl,
    show (", 'bin_one_label': " : String).data =
      ',' :: ' ' :: (keyTok "bin_one_label" ++ [' ']) from rfl,
    show (", 'bin_all_label': " : String).data =
      ',' :: ' ' :: (keyTok "bin_all_label" ++ [' ']) from rfl,
    show (", 'multi_maj_label': " : String).data =
      ',' :: ' ' :: (keyTok "multi_maj_label" ++ [' ']) from rfl,
    show (", 'disagree_bin_label': " : String).data =
      ',' :: ' ' :: (keyTok "disagree_bin_label" ++ [' ']) from rfl,
    show ("\x7d" : String).data = ['\x7d'] from rfl]
  simp [keyTok, String.data_append, List.append_assoc]

theorem scanFirst_eq_none (m : List Char → Option DerivedLabels) (l : List Char)
    (h : ∀ i, i < l.length → m (l.drop i) = none) : scanFirst m l = none := by
  induction l with
  | nil => rfl
  | cons c cs ih =>
    have h0 : m (c :: cs) = none := by
      have := h 0 (by simp)
      simpa using this
    simp only [scanFirst, h0]
    exact ih (fun i hi => by
      have := h (i + 1) (by simp only [List.length_cons]; omega)
      simpa using this)

theorem scanFirst_some_exists (m : List Char → Option DerivedLabels) (l : List Char)
    (d : DerivedLabels) (h : scanFirst m l = some d) :
    ∃ i, m (l.drop i) = some d := by
  induction l with
  | nil => simp [scanFirst] at h
  | cons c cs ih =>
    rcases h0 : m (c :: cs) with _ | d'
    · simp only [scanFirst, h0] at h
      rcases ih h with ⟨i, hi⟩
      exact ⟨i + 1, by simpa using hi⟩
    · simp only [scanFirst, h0] at h
      obtain rfl : d' = d := Option.some.inj h
      exact ⟨0, by simpa using h0⟩

theorem scanFirst_first (m : List Char → Option DerivedLabels) (l : List Char)
    (d : DerivedLabels) (i : Nat) (hi : i < l.length)
    (h1 : m (l.drop i) = some d) (h2 : ∀ k, k < i → m (l.drop k) = none) :
    scanFirst m l = some d := by
  induction l generalizing i with
  | nil => simp at hi
  | cons c cs ih =>
    rcases i with _ | n
    · simp only [List.drop_zero] at h1
      simp [scanFirst, h1]
    · have h0 : m (c :: cs) = none := by
        have := h2 0 (Nat.succ_pos n)
        simpa using this
      simp only [scanFirst, h0]
      simp only [List.length_cons] at hi
      refine ih n (by omega) (by simpa using h1) (fun k hk => ?_)
      have := h2 (k + 1) (by omega)
      simpa using this

-- C4.

/-- C4: round-trip — for any five single-digit values, applying the parser to
the exact literal rendering
`\x7b'bin_maj_label': D1, 'bin_one_label': D2, 'bin_all_label': D3,
'multi_maj_label': D4, 'disagree_bin_label': D5\x7d` succeeds and returns the
same five-value mapping. -/
theorem extract_roundtrip (d : DerivedLabels)
    (h1 : d.bin_maj_label < 10) (h2 : d.bin_one_label < 10) (h3 : d.bin_all_label < 10)
    (h4 : d.multi_maj_label < 10) (h5 : d.disagree_bin_label < 10) :
    extract_dict_from_response (renderLabels d) = .ok (some d) := by
  have hdata := renderLabels_data d h1 h2 h3 h4 h5
  have hmatch := matchPat1head_exact d.bin_maj_label d.bin_one_label d.bin_all_label
    d.multi_maj_label d.disagree_bin_label h1 h2 h3 h4 h5 []
  have hscan : scanFirst matchPat1head (renderLabels d).data =
      some ⟨d.bin_maj_label, d.bin_one_label, d.bin_all_label,
        d.multi_maj_label, d.disagree_bin_label⟩ := by
    rw [hdata]
    simp only [scanFirst, hmatch]
  simp only [extract_dict_from_response, hscan]

/-- Witness for C4 at the concrete mapping (1, 0, 1, 2, 1). -/
theorem extract_roundtrip_witness :
    extract_dict_from_response (renderLabels ⟨1, 0, 1, 2, 1⟩) = .ok (some ⟨1, 0, 1, 2, 1⟩) :=
  extract_roundtrip ⟨1, 0, 1, 2, 1⟩ (by decide) (by decide) (by decide) (by decide) (by decide)

-- C5.

/-- C5: if neither surface syntax occurs anywhere in the input, the parser
returns the failure tag carrying no mapping; and whenever it returns a
mapping, all five fields come from one contiguous `pattern_1` match at some
position — a partial mapping is impossible. -/
theorem extract_failure_ok (s : String) :
    ((∀ i, i < s.data.length → matchPat1head (s.data.drop i) = none) →
     (∀ i, i < s.data.length → matchPat2head (s.data.drop i) = none) →
     extract_dict_from_response s = .ok none) ∧
    (∀ d, extract_dict_from_response s = .ok (some d) →
      ∃ i, matchPat1head (s.data.drop i) = some d) := by
  constructor
  · intro h1 h2
    simp only [extract_dict_from_response, scanFirst_eq_none matchPat1head s.data h1,
      scanFirst_eq_none matchPat2head s.data h2]
  · intro d hd
    rcases h1 : scanFirst matchPat1head s.data with _ | d'
    · rcases h2 : scanFirst matchPat2head s.data with _ | d2 <;>
        simp [extract_dict_from_response, h1, h2] at hd
    · simp only [extract_dict_from_response, h1] at hd
      obtain rfl : d' = d := by simpa using hd
      exact scanFirst_some_exists _ _ _ h1

/-- Witness for C5 on an input matching neither pattern. -/
theorem extract_failure_ok_witness :
    extract_dict_from_response "x" = .ok none :=
  (extract_failure_ok "x").1 (by decide) (by decide)

-- C10.

/-- C10: whenever `pattern_1` matches (leftmost at position `i`), the
result is parsed from that match, even when a `pattern_2` match exists at
any position `j` — in particular one beginning earlier (`j < i`). -/
theorem extract_first_syntax_priority (s : String) (d : DerivedLabels) (i j : Nat)
    (hi : i < s.data.length) (h1 : matchPat1head (s.data.drop i) = some d)
    (hfirst : ∀ k, k < i → matchPat1head (s.data.drop k) = none)
    (hj : j < s.data.length) (h2 : (matchPat2head (s.data.drop j)).isSome = true) :
    extract_dict_from_response s = .ok (some d) := by
  have hs := scanFirst_first matchPat1head s.data d i hi h1 hfirst
  simp only [extract_dict_from_response, hs]

set_option maxRecDepth 8192 in
/-- Witness for C10: a `pattern_2` occurrence starts at position 0, the
`pattern_1` occurrence only at position 115, and the result comes from the
`pattern_1` match (digits 2..6), not the earlier `pattern_2` one. -/
theorem extract_first_syntax_priority_witness :
    extract_dict_from_response
      ("\x7b\\n'bin_maj_label': 1,\\n'bin_one_label': 1,\\n'bin_all_label': 1,\\n'multi_maj_label': 1,\\n'disagree_bin_label': 1\\n\x7d\x7b'bin_maj_label': 2, 'bin_one_label': 3, 'bin_all_label': 4, 'multi_maj_label': 5, 'disagree_bin_label': 6\x7d") =
      .ok (some ⟨2, 3, 4, 5, 6⟩) :=
  extract_first_syntax_priority
    "\x7b\\n'bin_maj_label': 1,\\n'bin_one_label': 1,\\n'bin_all_label': 1,\\n'multi_maj_label': 1,\\n'disagree_bin_label': 1\\n\x7d\x7b'bin_maj_label': 2, 'bin_one_label': 3, 'bin_all_label': 4, 'multi_maj_label': 5, 'disagree_bin_label': 6\x7d"
    ⟨2, 3, 4, 5, 6⟩ 115 0 (by decide) (by decide) (by decide) (by decide) (by decide)

-- C8: the argmax of Python's `max(range(n), key=...)` is the first index
-- attaining the maximal key.

theorem argmax_fold_firstmax (f1_scores : List ℚ) :
    ∀ n, 0 < n → ∃ j, j < n ∧
      (List.range n).foldl (argmaxStep f1_scores) none = some j ∧
      (∀ k, k < n → f1_scores.getD k 0 ≤ f1_scores.getD j 0) ∧
      (∀ k, k < j → f1_scores.getD k 0 < f1_scores.getD j 0) := by
  intro n
  induction n with
  | zero => intro h; omega
  | succ m ih =>
    intro _
    rcases Nat.eq_zero_or_pos m with hm | hm
    · subst hm
      refine ⟨0, by omega, rfl, ?_, ?_⟩
      · intro k hk
        interval_cases k
        exact le_refl _
      · intro k hk
        omega
    · rcases ih hm with ⟨j, hjm, hfold, hmaxj, hfirstj⟩
      rw [List.range_succ, List.foldl_append, hfold]
      simp only [List.foldl_cons, List.foldl_nil]
      by_cases hlt : f1_scores.getD j 0 < f1_scores.getD m 0
      · refine ⟨m, by omega, ?_, ?_, ?_⟩
        · show (if f1_scores.getD j 0 < f1_scores.getD m 0 then some m else some j) = some m
          rw [if_pos hlt]
        · intro k hk
          rcases Nat.lt_succ_iff_lt_or_eq.mp hk with hk' | hk'
          · exact le_trans (hmaxj k hk') (le_of_lt hlt)
          · subst hk'
            exact le_refl _
        · intro k hk
          exact lt_of_le_of_lt (hmaxj k hk) hlt
      · refine ⟨j, by omega, ?_, ?_, ?_⟩
        · show (if f1_scores.getD j 0 < f1_scores.getD m 0 then some m else some j) = some j
          rw [if_neg hlt]
        · intro k hk
          rcases Nat.lt_succ_iff_lt_or_eq.mp hk with hk' | hk'
          · exact hmaxj k hk'
          · subst hk'
            exact le_of_not_lt hlt
        · exact hfirstj

theorem firstmax_unique (f1_scores : List ℚ) (n i j : Nat)
    (hi : i < n) (hmaxi : ∀ k, k < n → f1_scores.getD k 0 ≤ f1_scores.getD i 0)
    (hfirsti : ∀ k, k < i → f1_scores.getD k 0 < f1_scores.getD i 0)
    (hj : j < n) (hmaxj : ∀ k, k < n → f1_scores.getD k 0 ≤ f1_scores.getD j 0)
    (hfirstj : ∀ k, k < j → f1_scores.getD k 0 < f1_scores.getD j 0) :
    i = j := by
  rcases Nat.lt_trichotomy i j with h | h | h
  · exact absurd (hmaxi j hj) (not_le_of_lt (hfirstj i h))
  · exact h
  · exact absurd (hmaxj i hi) (not_le_of_lt (hfirsti j h))

theorem argmaxIdx_eq_firstmax (f1_scores : List ℚ) (i : Nat)
    (hi : i < f1_scores.length)
    (hmax : ∀ k, k < f1_scores.length → f1_scores.getD k 0 ≤ f1_scores.getD i 0)
    (hfirst : ∀ k, k < i → f1_scores.getD k 0 < f1_scores.getD i 0) :
    argmaxIdx f1_scores = some i := by
  rcases argmax_fold_firstmax f1_scores f1_scores.length (by omega) with
    ⟨j, hj, hfold, hmaxj, hfirstj⟩
  have hij : i = j :=
    firstmax_unique f1_scores f1_scores.length i j hi hmax hfirst hj hmaxj hfirstj
  subst hij
  simp only [argmaxIdx]
  exact hfold

set_option maxHeartbeats 2000000 in
/-- C8 counterexample: the claim quantifies over every non-empty list of
prediction tables, but with ten tables whose best one sits at index 9 the
source indexes `key[9]` into the nine-entry name list and raises
(`IndexError`) instead of reporting a name and breakdown. -/
theorem find_best_model_ten_predictions_fails :
    find_best_model ⟨[0], [0], [0], [0], [0]⟩
      [⟨[1], [1], [1], [1], [1]⟩, ⟨[1], [1], [1], [1], [1]⟩, ⟨[1], [1], [1], [1], [1]⟩,
       ⟨[1], [1], [1], [1], [1]⟩, ⟨[1], [1], [1], [1], [1]⟩, ⟨[1], [1], [1], [1], [1]⟩,
       ⟨[1], [1], [1], [1], [1]⟩, ⟨[1], [1], [1], [1], [1]⟩, ⟨[1], [1], [1], [1], [1]⟩,
       ⟨[0], [0], [0], [0], [0]⟩] = none := by
  have hs1 : f1_sum ⟨[0], [0], [0], [0], [0]⟩ ⟨[1], [1], [1], [1], [1]⟩ = 0 := by
    norm_num [f1_sum, compute_f1, compute_metrics, f1_weighted, f1_class, List.dedup]
  have hs2 : f1_sum ⟨[0], [0], [0], [0], [0]⟩ ⟨[0], [0], [0], [0], [0]⟩ = 5 := by
    norm_num [f1_sum, compute_f1, compute_metrics, f1_weighted, f1_class, List.dedup]
  have hscores : ([⟨[1], [1], [1], [1], [1]⟩, ⟨[1], [1], [1], [1], [1]⟩,
      ⟨[1], [1], [1], [1], [1]⟩, ⟨[1], [1], [1], [1], [1]⟩, ⟨[1], [1], [1], [1], [1]⟩,
      ⟨[1], [1], [1], [1], [1]⟩, ⟨[1], [1], [1], [1], [1]⟩, ⟨[1], [1], [1], [1], [1]⟩,
      ⟨[1], [1], [1], [1], [1]⟩, ⟨[0], [0], [0], [0], [0]⟩] : List LabelFrame).map
        (fun p => f1_sum ⟨[0], [0], [0], [0], [0]⟩ p) =
      [0, 0, 0, 0, 0, 0, 0, 0, 0, 5] := by
    simp [hs1, hs2]
  have hargmax : argmaxIdx [0, 0, 0, 0, 0, 0, 0, 0, 0, (5 : ℚ)] = some 9 := by decide
  simp only [find_best_model, hscores, hargmax]
  rfl

/-- C8 (amended): for a ground-truth table and a non-empty list of at most
nine prediction tables, `find_best_model` sums the five per-column scores of
each table, selects the first index attaining the maximal sum, and reports
the name at that position of the fixed name list together with that table's
five-score breakdown. -/
theorem find_best_model_spec (real_data : LabelFrame) (lop : List LabelFrame)
    (hlen : lop.length ≤ 9) (i : Nat) (hi : i < lop.length)
    (hmax : ∀ k, k < lop.length →
      (lop.map (fun p => f1_sum real_data p)).getD k 0 ≤
        (lop.map (fun p => f1_sum real_data p)).getD i 0)
    (hfirst : ∀ k, k < i →
      (lop.map (fun p => f1_sum real_data p)).getD k 0 <
        (lop.map (fun p => f1_sum real_data p)).getD i 0) :
    find_best_model real_data lop =
      some (keyNames.getD i "", compute_f1 real_data (lop.getD i default)) := by
  have hargmax : argmaxIdx (lop.map (fun p => f1_sum real_data p)) = some i := by
    apply argmaxIdx_eq_firstmax
    · rw [List.length_map]
      exact hi
    · intro k hk
      rw [List.length_map] at hk
      exact hmax k hk
    · exact hfirst
  have h9 : i < keyNames.length := by
    have : keyNames.length = 9 := rfl
    omega
  simp only [find_best_model, hargmax, if_pos h9]

set_option maxHeartbeats 2000000 in
/-- Witness for C8 at two one-row tables, the second matching the truth. -/
theorem find_best_model_spec_witness :
    find_best_model ⟨[0], [0], [0], [0], [0]⟩
      [⟨[1], [1], [1], [1], [1]⟩, ⟨[0], [0], [0], [0], [0]⟩] =
      some ("Bert_VSI_10",
        compute_f1 ⟨[0], [0], [0], [0], [0]⟩ ⟨[0], [0], [0], [0], [0]⟩) := by
  have hs1 : f1_sum ⟨[0], [0], [0], [0], [0]⟩ ⟨[1], [1], [1], [1], [1]⟩ = 0 := by
    norm_num [f1_sum, compute_f1, compute_metrics, f1_weighted, f1_class, List.dedup]
  have hs2 : f1_sum ⟨[0], [0], [0], [0], [0]⟩ ⟨[0], [0], [0], [0], [0]⟩ = 5 := by
    norm_num [f1_sum, compute_f1, compute_metrics, f1_weighted, f1_class, List.dedup]
  have hscores : ([⟨[1], [1], [1], [1], [1]⟩, ⟨[0], [0], [0], [0], [0]⟩] :
      List LabelFrame).map (fun p => f1_sum ⟨[0], [0], [0], [0], [0]⟩ p) = [0, 5] := by
    simp [hs1, hs2]
  have h := find_best_model_spec ⟨[0], [0], [0], [0], [0]⟩
    [⟨[1], [1], [1], [1], [1]⟩, ⟨[0], [0], [0], [0], [0]⟩] (by decide) 1 (by decide)
    (fun k hk => by
      rw [hscores]
      have hk' : k < 2 := by simpa using hk
      interval_cases k <;> decide)
    (fun k hk => by
      rw [hscores]
      interval_cases k <;> decide)
  exact h
